import Mathlib

set_option maxRecDepth 10000

/-!
Verification development for the best-execution price estimation core and the
1Inch trade-finding adapter of the services repository.

The estimator in `crates/shared/src/price_estimation/baseline.rs` and the
adapter in `crates/shared/src/trade_finding/oneinch.rs` are embedded as
executable Lean functions.  Machine integers (`U256`, `u64`) are modelled as
`Nat` with explicit `2 ^ 256` overflow guards where the source uses checked
arithmetic; `num::BigRational` is modelled by an unnormalised
numerator/denominator pair (`BigRat`) whose comparisons cross-multiply, which
agrees with exact rational ordering whenever denominators are positive (the
only way the program ever builds them).  Asynchronous effects are made
explicit: upstream fetches become function arguments (a pool snapshot and an
already-fetched gas price), and the adapter's network use is instrumented as a
list of issued API calls.

Components that the estimator calls but whose sources are outside the
excerpt (`baseline_solver`, `sources::uniswap_v2`, `oneinch_api`,
`request_sharing`, the `gas` constants and `amounts_to_price`) are modelled
from the specification; each such definition carries a doc comment starting
with `Modelled from the spec:`.
-/

/-- Token addresses (`H160`) are modelled as natural numbers. -/
abbrev Token := Nat

/-- `model::order::OrderKind`. -/
inductive OrderKind where
  | Buy
  | Sell
deriving DecidableEq, Repr

/-- `price_estimation::Query` (the `verification` payload, which the baseline
estimator never reads, is omitted).  `in_amount` is a `NonZeroU256`; claims
that rely on positivity state it as a hypothesis. -/
structure Query where
  sell_token : Token
  buy_token : Token
  in_amount : Nat
  kind : OrderKind
deriving DecidableEq, Repr

/-- `PriceEstimationError`, restricted to the variants the embedded code can
produce.  `ProtocolInternal` carries its cause as text. -/
inductive PriceEstimationError where
  | NoLiquidity
  | ProtocolInternal (cause : String)
deriving DecidableEq, Repr

deriving instance DecidableEq for Except

/-- Modelled from the spec: one constant-product liquidity venue — an
unordered token pair (stored with `token0 < token1`, as `TokenPair` orders
its components), two reserves each tied to a specific token, and a venue
address. -/
structure Pool where
  token0 : Token
  token1 : Token
  reserve0 : Nat
  reserve1 : Nat
  address : Nat
deriving DecidableEq, Repr

/-- The per-query pool snapshot.  The source first folds the fetched
`Vec<Pool>` into a `HashMap<TokenPair, Vec<Pool>>`; here the snapshot stays a
list and the map lookup becomes a filter, which preserves the pools attached
to every pair. -/
abbrev Pools := List Pool

/-- The configuration of `BaselinePriceEstimator` (the pool fetcher and gas
estimator collaborators are replaced by explicit arguments). -/
structure Config where
  base_tokens : List Token
  native_token : Token
  native_token_price_estimation_amount : Nat
  solver : Nat
deriving DecidableEq, Repr

/-- One more than the largest `U256` value; checked `U256` arithmetic fails
from this bound upward. -/
def U256_LIMIT : Nat := 2 ^ 256

/-- `TokenPair::new`: orders the two tokens and refuses equal ones. -/
def token_pair_new (a b : Token) : Option (Token × Token) :=
  if a = b then none
  else if a < b then some (a, b) else some (b, a)

/-- All pools of the snapshot attached to an ordered token pair. -/
def pools_for (pools : Pools) (pair : Token × Token) : List Pool :=
  pools.filter (fun p => p.token0 == pair.1 && p.token1 == pair.2)

/-- Modelled from the spec: the constant-product output amount of one hop
(`Pool::get_amount_out` of `sources::uniswap_v2`, reserves minus the 0.3%
fee), failing on a zero reserve or on `U256` overflow. -/
def get_amount_out (p : Pool) (token_out : Token) (amount_in : Nat) (token_in : Token) :
    Option Nat :=
  let r_in := if token_in = p.token0 then p.reserve0 else p.reserve1
  let r_out := if token_out = p.token0 then p.reserve0 else p.reserve1
  if r_in = 0 ∨ r_out = 0 then none
  else
    let a := amount_in * 997
    if a ≥ U256_LIMIT then none
    else
      let numerator := a * r_out
      if numerator ≥ U256_LIMIT then none
      else
        let denominator := r_in * 1000 + a
        if denominator ≥ U256_LIMIT then none
        else some (numerator / denominator)

/-- Modelled from the spec: the constant-product input amount required by one
hop (`Pool::get_amount_in`), failing on a zero reserve, on a requested output
that meets or exceeds the output reserve, or on `U256` overflow. -/
def get_amount_in (p : Pool) (token_out : Token) (amount_out : Nat) (token_in : Token) :
    Option Nat :=
  let r_in := if token_in = p.token0 then p.reserve0 else p.reserve1
  let r_out := if token_out = p.token0 then p.reserve0 else p.reserve1
  if r_in = 0 ∨ r_out = 0 then none
  else if amount_out ≥ r_out then none
  else
    let n1 := r_in * amount_out
    if n1 ≥ U256_LIMIT then none
    else
      let numerator := n1 * 1000
      if numerator ≥ U256_LIMIT then none
      else
        let denominator := (r_out - amount_out) * 997
        if denominator ≥ U256_LIMIT then none
        else
          let result := numerator / denominator + 1
          if result ≥ U256_LIMIT then none else some result

/-- Modelled from the spec: `baseline_solver::Estimate` — the amount produced
by walking a path, together with the number of pools traversed (hop count),
which its gas model consumes. -/
structure SolverEstimate where
  value : Nat
  hops : Nat
deriving DecidableEq, Repr

/-- One forward hop in sell direction: among the pools for the pair, the one
giving the largest output wins (Modelled from the spec: the pool most
favourable for the direction is chosen). -/
def hop_buy (pools : Pools) (t_in t_next : Token) (amount : Nat) : Option Nat :=
  match token_pair_new t_in t_next with
  | none => none
  | some pair =>
      ((pools_for pools pair).filterMap (fun p => get_amount_out p t_next amount t_in)).max?

/-- One backward hop in buy direction: among the pools for the pair, the one
requiring the smallest input wins. -/
def hop_sell (pools : Pools) (t_prev t_cur : Token) (amount_out : Nat) : Option Nat :=
  match token_pair_new t_prev t_cur with
  | none => none
  | some pair =>
      ((pools_for pools pair).filterMap (fun p => get_amount_in p t_cur amount_out t_prev)).min?

/-- Forward walk of `estimate_buy_amount`: chain the hops, any failing hop
makes the whole path infeasible. -/
def buy_walk (pools : Pools) : List Token → Token → Nat → Nat → Option SolverEstimate
  | [], _, amount, hops => some ⟨amount, hops⟩
  | next :: rest, cur, amount, hops =>
    match hop_buy pools cur next amount with
    | none => none
    | some out => buy_walk pools rest next out (hops + 1)

/-- Modelled from the spec: `baseline_solver::estimate_buy_amount` — the
output amount of selling `sell_amount` along `path`, walking hops forward. -/
def estimate_buy_amount (sell_amount : Nat) (path : List Token) (pools : Pools) :
    Option SolverEstimate :=
  match path with
  | [] => none
  | t0 :: rest => buy_walk pools rest t0 sell_amount 0

/-- Backward walk of `estimate_sell_amount`. -/
def sell_walk (pools : Pools) : List Token → Token → Nat → Nat → Option SolverEstimate
  | [], _, amount, hops => some ⟨amount, hops⟩
  | prev :: rest, cur, amount, hops =>
    match hop_sell pools prev cur amount with
    | none => none
    | some inp => sell_walk pools rest prev inp (hops + 1)

/-- Modelled from the spec: `baseline_solver::estimate_sell_amount` — the
input amount required to buy `buy_amount` along `path`, walking hops
backward from the target output. -/
def estimate_sell_amount (buy_amount : Nat) (path : List Token) (pools : Pools) :
    Option SolverEstimate :=
  match path.reverse with
  | [] => none
  | t_last :: rest => sell_walk pools rest t_last buy_amount 0

/-- Modelled from the spec: `gas::SETTLEMENT_SINGLE_TRADE` (a fixed constant
whose numeric value lives outside the excerpt; no claim depends on the
value). -/
def GAS_SETTLEMENT_SINGLE_TRADE : Nat := 94391

/-- Modelled from the spec: `gas::ERC20_TRANSFER` (fixed constant, value
outside the excerpt). -/
def GAS_ERC20_TRANSFER : Nat := 27513

/-- Modelled from the spec: `gas::SETTLEMENT_OVERHEAD` (fixed constant, value
outside the excerpt), used by the 1Inch adapter's quote. -/
def GAS_SETTLEMENT_OVERHEAD : Nat := 106391

/-- `estimate_gas` of `price_estimation/baseline.rs`: converts the number of
tokens visited on a path into the reported gas estimate.  `checked_sub`
returning `None` for the empty path becomes the `0` case. -/
def estimate_gas (path_len : Nat) : Nat :=
  match path_len with
  | 0 => 0
  | n + 1 => GAS_SETTLEMENT_SINGLE_TRADE + (GAS_ERC20_TRANSFER * 2 + 40000) * n

/-- Modelled from the spec: `baseline_solver::Estimate::gas_cost`, the gas
model converting a path's hop count into a gas-unit estimate used inside the
comparison key (a fixed positive constant per hop count). -/
def SolverEstimate.gas_cost (e : SolverEstimate) : Nat :=
  estimate_gas (e.hops + 1)

/-- `num::BigRational`, kept unnormalised: every rational the program builds
has a positive denominator, and all comparisons cross-multiply. -/
structure BigRat where
  num : Int
  den : Int
deriving DecidableEq, Repr

/-- Exact rational order: `a < b`. -/
def BigRat.ltProp (a b : BigRat) : Prop := a.num * b.den < b.num * a.den

/-- Exact rational order: `a ≤ b`. -/
def BigRat.leProp (a b : BigRat) : Prop := a.num * b.den ≤ b.num * a.den

/-- Boolean strict comparison, as `Ord` on `BigRational` decides it. -/
def BigRat.blt (a b : BigRat) : Bool := decide (a.num * b.den < b.num * a.den)

/-- `U256::to_big_rational`. -/
def BigRat.ofNat (n : Nat) : BigRat := ⟨n, 1⟩

/-- `BigRational` multiplication (normalisation dropped; order-equivalent). -/
def BigRat.mul (a b : BigRat) : BigRat := ⟨a.num * b.num, a.den * b.den⟩

/-- `BigRational` subtraction. -/
def BigRat.sub (a b : BigRat) : BigRat := ⟨a.num * b.den - b.num * a.den, a.den * b.den⟩

/-- `BigRational` negation. -/
def BigRat.neg (a : BigRat) : BigRat := ⟨-a.num, a.den⟩

/-- `-U256::max_value().to_big_rational()`: the comparison value given to an
infeasible candidate path. -/
def WORST_COMPARISON : BigRat := ⟨-(2 ^ 256 - 1 : Int), 1⟩

/-- Modelled from the spec: `BaseTokens::path_candidates` — the direct path
first, then the 2-hop path through each configured base token distinct from
both endpoints, in configured order. -/
def path_candidates (cfg : Config) (sell_token buy_token : Token) : List (List Token) :=
  [sell_token, buy_token] ::
    (cfg.base_tokens.filter (fun b => b != sell_token && b != buy_token)).map
      (fun b => [sell_token, b, buy_token])

/-- The fold inside `Iterator::max_by_key`: the running maximum is replaced
whenever the new element's key is not smaller, so the last of equally
maximal elements survives. -/
def max_fold {α : Type} (key : α → BigRat) (best : α) : List α → α
  | [] => best
  | x :: l => max_fold key (if BigRat.blt (key x) (key best) then best else x) l

/-- Rust's `Iterator::max_by_key` on a list: `none` on the empty list,
otherwise the last element with maximal key. -/
def max_by_key_last {α : Type} (key : α → BigRat) : List α → Option α
  | [] => none
  | a :: l => some (max_fold key a l)

/-- `best_execution`: enumerate candidates, pick the maximal comparison key,
recompute the resulting amount on the winner; either a missing winner or a
failing recomputation is `NoLiquidity`. -/
def best_execution (cfg : Config) (sell_token buy_token : Token) (amount : Nat)
    (comparison : Nat → List Token → Pools → BigRat)
    (resulting_amount : Nat → List Token → Pools → Option Nat)
    (pools : Pools) : Except PriceEstimationError (List Token × Nat) :=
  match max_by_key_last (fun path => comparison amount path pools)
      (path_candidates cfg sell_token buy_token) with
  | none => Except.error PriceEstimationError.NoLiquidity
  | some best_path =>
    match resulting_amount amount best_path pools with
    | none => Except.error PriceEstimationError.NoLiquidity
    | some r => Except.ok (best_path, r)

/-- The `path_comparison` closure of `best_execution_sell_order`: with a
native price, value times price minus gas cost in native units (the gas
price is the `U256::from_f64_lossy` image of the estimator's `f64`, taken
here as a `Nat` argument); without one, the raw value. -/
def sell_path_comparison (gas_price : Nat) (buy_token_price_in_native_token : Option BigRat)
    (e : SolverEstimate) : BigRat :=
  match buy_token_price_in_native_token with
  | some price =>
      ((BigRat.ofNat e.value).mul price).sub
        ((BigRat.ofNat gas_price).mul (BigRat.ofNat e.gas_cost))
  | none => BigRat.ofNat e.value

/-- The comparison key of a sell-order candidate: infeasible candidates get
`WORST_COMPARISON` instead of an error. -/
def sell_comparison_key (gas_price : Nat) (price : Option BigRat) (amount : Nat)
    (path : List Token) (pools : Pools) : BigRat :=
  match estimate_buy_amount amount path pools with
  | some e => sell_path_comparison gas_price price e
  | none => WORST_COMPARISON

/-- `best_execution_sell_order`: returns path and out (buy) amount. -/
def best_execution_sell_order (cfg : Config) (sell_token buy_token : Token)
    (sell_amount gas_price : Nat) (buy_token_price_in_native_token : Option BigRat)
    (pools : Pools) : Except PriceEstimationError (List Token × Nat) :=
  best_execution cfg sell_token buy_token sell_amount
    (sell_comparison_key gas_price buy_token_price_in_native_token)
    (fun amount path pools => (estimate_buy_amount amount path pools).map
      (fun e => e.value))
    pools

/-- The `path_comparison` closure of `best_execution_buy_order`: minimise the
required input, so negate it; gas cost still subtracts. -/
def buy_path_comparison (gas_price : Nat) (sell_token_price_in_native_token : Option BigRat)
    (e : SolverEstimate) : BigRat :=
  match sell_token_price_in_native_token with
  | some price =>
      (((BigRat.ofNat e.value).mul price).neg).sub
        ((BigRat.ofNat gas_price).mul (BigRat.ofNat e.gas_cost))
  | none => (BigRat.ofNat e.value).neg

/-- The comparison key of a buy-order candidate. -/
def buy_comparison_key (gas_price : Nat) (price : Option BigRat) (amount : Nat)
    (path : List Token) (pools : Pools) : BigRat :=
  match estimate_sell_amount amount path pools with
  | some e => buy_path_comparison gas_price price e
  | none => WORST_COMPARISON

/-- `best_execution_buy_order`: returns path and out (sell) amount. -/
def best_execution_buy_order (cfg : Config) (sell_token buy_token : Token)
    (buy_amount gas_price : Nat) (sell_token_price_in_native_token : Option BigRat)
    (pools : Pools) : Except PriceEstimationError (List Token × Nat) :=
  best_execution cfg sell_token buy_token buy_amount
    (buy_comparison_key gas_price sell_token_price_in_native_token)
    (fun amount path pools => (estimate_sell_amount amount path pools).map
      (fun e => e.value))
    pools

/-- Modelled from the spec: `price_estimation::amounts_to_price` — the price
`sell_amount / buy_amount` as an exact rational, `none` for a zero buy
amount. -/
def amounts_to_price (sell_amount buy_amount : Nat) : Option BigRat :=
  if buy_amount = 0 then none else some ⟨sell_amount, buy_amount⟩

/-- The native-token price of `token` as `estimate_price_helper` computes it
when gas costs are considered: `1` for the native token itself, otherwise
one gas-unaware sell-order sub-search of the native token followed by
`amounts_to_price`. -/
def native_price_for (cfg : Config) (token : Token) (gas_price : Nat) (pools : Pools) :
    Except PriceEstimationError BigRat :=
  if token = cfg.native_token then Except.ok (BigRat.ofNat 1)
  else
    match best_execution_sell_order cfg cfg.native_token token
        cfg.native_token_price_estimation_amount gas_price none pools with
    | Except.error e => Except.error e
    | Except.ok (_, buy_amount) =>
      match amounts_to_price cfg.native_token_price_estimation_amount buy_amount with
      | none => Except.error PriceEstimationError.NoLiquidity
      | some p => Except.ok p

/-- `estimate_price_helper`: identity short-circuit, then per order kind the
optional native-price computation and the main search.  Returns the path and
the out amount. -/
def estimate_price_helper (cfg : Config) (q : Query) (consider_gas_costs : Bool)
    (pools : Pools) (gas_price : Nat) : Except PriceEstimationError (List Token × Nat) :=
  if q.sell_token = q.buy_token then Except.ok ([], q.in_amount)
  else
    match q.kind with
    | OrderKind.Buy =>
      match (if consider_gas_costs then
               match native_price_for cfg q.sell_token gas_price pools with
               | Except.error e => Except.error e
               | Except.ok p => Except.ok (some p)
             else Except.ok none : Except PriceEstimationError (Option BigRat)) with
      | Except.error e => Except.error e
      | Except.ok price =>
        best_execution_buy_order cfg q.sell_token q.buy_token q.in_amount gas_price
          price pools
    | OrderKind.Sell =>
      match (if consider_gas_costs then
               match native_price_for cfg q.buy_token gas_price pools with
               | Except.error e => Except.error e
               | Except.ok p => Except.ok (some p)
             else Except.ok none : Except PriceEstimationError (Option BigRat)) with
      | Except.error e => Except.error e
      | Except.ok price =>
        best_execution_sell_order cfg q.sell_token q.buy_token q.in_amount gas_price
          price pools

/-- `price_estimation::Estimate` as returned by `estimate`. -/
structure Estimate where
  out_amount : Nat
  gas : Nat
  solver : Nat
deriving DecidableEq, Repr

/-- The body of `PriceEstimating::estimate` after both fetches succeeded: the
gas-aware helper, then the gas estimate of the winning path's length. -/
def estimate (cfg : Config) (q : Query) (pools : Pools) (gas_price : Nat) :
    Except PriceEstimationError Estimate :=
  match estimate_price_helper cfg q true pools gas_price with
  | Except.error e => Except.error e
  | Except.ok (path, out_amount) =>
    Except.ok ⟨out_amount, estimate_gas path.length, cfg.solver⟩

/-- The spec's recursive reading of the helper: the native-price sub-search
is the same search invoked recursively with gas-awareness disabled, with an
explicit fuel counting recursion depth (`none` = fuel exhausted).  Compared
against `estimate_price_helper` to show the recursion has depth at most
one. -/
def estimate_price_helper_rec (cfg : Config) :
    Nat → Query → Bool → Pools → Nat →
      Option (Except PriceEstimationError (List Token × Nat))
  | 0, _, _, _, _ => none
  | fuel + 1, q, consider_gas_costs, pools, gas_price =>
    if q.sell_token = q.buy_token then some (Except.ok ([], q.in_amount))
    else
      match q.kind with
      | OrderKind.Buy =>
        match (if consider_gas_costs then
                 if q.sell_token = cfg.native_token then
                   some (Except.ok (some (BigRat.ofNat 1)))
                 else
                   match estimate_price_helper_rec cfg fuel
                       ⟨cfg.native_token, q.sell_token,
                        cfg.native_token_price_estimation_amount, OrderKind.Sell⟩
                       false pools gas_price with
                   | none => none
                   | some (Except.error e) => some (Except.error e)
                   | some (Except.ok (_, buy_amount)) =>
                     match amounts_to_price cfg.native_token_price_estimation_amount
                         buy_amount with
                     | none => some (Except.error PriceEstimationError.NoLiquidity)
                     | some p => some (Except.ok (some p))
               else some (Except.ok none) :
               Option (Except PriceEstimationError (Option BigRat))) with
        | none => none
        | some (Except.error e) => some (Except.error e)
        | some (Except.ok price) =>
          some (best_execution_buy_order cfg q.sell_token q.buy_token q.in_amount
            gas_price price pools)
      | OrderKind.Sell =>
        match (if consider_gas_costs then
                 if q.buy_token = cfg.native_token then
                   some (Except.ok (some (BigRat.ofNat 1)))
                 else
                   match estimate_price_helper_rec cfg fuel
                       ⟨cfg.native_token, q.buy_token,
                        cfg.native_token_price_estimation_amount, OrderKind.Sell⟩
                       false pools gas_price with
                   | none => none
                   | some (Except.error e) => some (Except.error e)
                   | some (Except.ok (_, buy_amount)) =>
                     match amounts_to_price cfg.native_token_price_estimation_amount
                         buy_amount with
                     | none => some (Except.error PriceEstimationError.NoLiquidity)
                     | some p => some (Except.ok (some p))
               else some (Except.ok none) :
               Option (Except PriceEstimationError (Option BigRat))) with
        | none => none
        | some (Except.error e) => some (Except.error e)
        | some (Except.ok price) =>
          some (best_execution_sell_order cfg q.sell_token q.buy_token q.in_amount
            gas_price price pools)

/-- Modelled from the spec: the 1Inch client's error type — an API error with
an HTTP status code and a description, or any other failure with its
message. -/
inductive OneInchError where
  | Api (status_code : Nat) (description : String)
  | Other (message : String)
deriving DecidableEq, Repr

/-- Modelled from the spec: the aggregator's insufficient-liquidity signal
(an API error whose description is the insufficient-liquidity text).  The
source spells the name `is_insuffucient_liquidity`. -/
def OneInchError.is_insuffucient_liquidity : OneInchError → Bool
  | OneInchError.Api _ desc => desc == "insufficient liquidity"
  | OneInchError.Other _ => false

/-- `trade_finding::TradeError`, with `Other` carrying the original
aggregator error so its message is preserved. -/
inductive TradeError where
  | NoLiquidity
  | UnsupportedOrderType (reason : String)
  | RateLimited
  | Other (cause : OneInchError)
deriving DecidableEq, Repr

/-- `From<OneInchError> for TradeError` of `trade_finding/oneinch.rs`: an API
error with status 429 first, then the insufficient-liquidity signal, then
everything else wrapped in `Other`. -/
def trade_error_from_oneinch (err : OneInchError) : TradeError :=
  match err with
  | OneInchError.Api code desc =>
    if code = 429 then TradeError.RateLimited
    else if (OneInchError.Api code desc).is_insuffucient_liquidity then
      TradeError.NoLiquidity
    else TradeError.Other (OneInchError.Api code desc)
  | e =>
    if e.is_insuffucient_liquidity then TradeError.NoLiquidity
    else TradeError.Other e

/-- The aggregator's quote response (the fields the adapter reads). -/
structure SellOrderQuote where
  to_token_amount : Nat
  estimated_gas : Nat
deriving DecidableEq, Repr

/-- The transaction part of the aggregator's swap response. -/
structure Transaction where
  to_addr : Nat
  value : Nat
  data : List Nat
deriving DecidableEq, Repr

/-- The aggregator's swap response. -/
structure Swap where
  tx : Transaction
deriving DecidableEq, Repr

/-- `trade_finding::Quote`. -/
structure Quote where
  out_amount : Nat
  gas_estimate : Nat
  solver : Nat
deriving DecidableEq, Repr

/-- One on-chain interaction of a `Trade`. -/
structure Interaction where
  target : Nat
  value : Nat
  data : List Nat
deriving DecidableEq, Repr

/-- `trade_finding::Trade` as `Trade::swap` assembles it. -/
structure Trade where
  out_amount : Nat
  gas_estimate : Nat
  approval_spender : Option Nat
  interaction : Interaction
  solver : Nat
deriving DecidableEq, Repr

/-- Modelled from the spec: the aggregator collaborator, reduced to the
responses it would return to each capability (quote, spender, swap, protocol
list).  The adapter's behaviour is a function of these responses. -/
structure OneInchApi where
  sell_order_quote : Except OneInchError SellOrderQuote
  spender_address : Except OneInchError Nat
  swap_response : Except OneInchError Swap
  protocols : Except OneInchError (List String)
deriving DecidableEq, Repr

/-- The `Inner` state of `OneInchTradeFinder`.  The TTL cache slots are
modelled by their observable state at the query: `some v` means a fresh
cached value (age within TTL, no fetch), `none` means stale (a fetch
happens). -/
structure OneInchInner where
  api : OneInchApi
  disabled_protocols : List String
  cached_protocols : Option (Option (List String))
  cached_spender : Option Nat
  referrer_address : Option Nat
  solver : Nat
  settlement_contract : Nat
deriving DecidableEq, Repr

/-- The network calls the adapter can issue, recorded in issue order. -/
inductive ApiCall where
  | quoteCall
  | spenderCall
  | swapCall
  | protocolsCall
deriving DecidableEq, Repr

/-- `InternalQuery`: the coalescing key — the query plus the
allowed-protocol list. -/
structure InternalQuery where
  data : Query
  allowed_protocols : Option (List String)
deriving DecidableEq, Repr

/-- Modelled from the spec: `Cache::allowed_protocols` — return the fresh
cached protocol list without a fetch, otherwise fetch the enabled protocols
and drop the disabled ones. -/
def allowed_protocols (inner : OneInchInner) :
    Except TradeError (Option (List String)) × List ApiCall :=
  match inner.cached_protocols with
  | some v => (Except.ok v, [])
  | none =>
    match inner.api.protocols with
    | Except.error e => (Except.error (trade_error_from_oneinch e), [ApiCall.protocolsCall])
    | Except.ok ps =>
      (Except.ok (some (ps.filter (fun p => !(inner.disabled_protocols.contains p)))),
        [ApiCall.protocolsCall])

/-- `Inner::verify_query_and_get_protocols`: reject Buy-kind queries before
touching the cache or the network. -/
def verify_query_and_get_protocols (inner : OneInchInner) (q : Query) :
    Except TradeError (Option (List String)) × List ApiCall :=
  if q.kind = OrderKind.Buy then
    (Except.error (TradeError.UnsupportedOrderType "buy order"), [])
  else allowed_protocols inner

/-- `Inner::perform_quote`: one quote request; on success the settlement
overhead is added to the aggregator's gas estimate. -/
def perform_quote (inner : OneInchInner) (_iq : InternalQuery) :
    Except TradeError Quote × List ApiCall :=
  match inner.api.sell_order_quote with
  | Except.error e => (Except.error (trade_error_from_oneinch e), [ApiCall.quoteCall])
  | Except.ok sq =>
    (Except.ok ⟨sq.to_token_amount, GAS_SETTLEMENT_OVERHEAD + sq.estimated_gas,
      inner.solver⟩, [ApiCall.quoteCall])

/-- `Inner::spender`: the fresh cached spender, or one fetch. -/
def spender_fetch (inner : OneInchInner) : Except TradeError Nat × List ApiCall :=
  match inner.cached_spender with
  | some a => (Except.ok a, [])
  | none =>
    match inner.api.spender_address with
    | Except.error e => (Except.error (trade_error_from_oneinch e), [ApiCall.spenderCall])
    | Except.ok a => (Except.ok a, [ApiCall.spenderCall])

/-- `Inner::swap`: one swap-construction request. -/
def swap_fetch (inner : OneInchInner) : Except TradeError Swap × List ApiCall :=
  match inner.api.swap_response with
  | Except.error e => (Except.error (trade_error_from_oneinch e), [ApiCall.swapCall])
  | Except.ok s => (Except.ok s, [ApiCall.swapCall])

/-- `OneInchTradeFinder::quote` (the coalescing wrapper `shared_quote`
executes exactly this computation; sharing itself is analysed separately as
a transition system). -/
def oneinch_quote (inner : OneInchInner) (q : Query) :
    Except TradeError Quote × List ApiCall :=
  match verify_query_and_get_protocols inner q with
  | (Except.error e, calls) => (Except.error e, calls)
  | (Except.ok allowed, calls) =>
    let r := perform_quote inner ⟨q, allowed⟩
    (r.1, calls ++ r.2)

/-- `OneInchTradeFinder::swap`: after verification, quote, spender and swap
are resolved concurrently and composed only if all three succeed.  The
sequential model runs all three and reports quote, spender, then swap errors
in that fixed order (in the source the surviving error among concurrent
failures is schedule-dependent). -/
def oneinch_swap (inner : OneInchInner) (q : Query) :
    Except TradeError Trade × List ApiCall :=
  match verify_query_and_get_protocols inner q with
  | (Except.error e, calls) => (Except.error e, calls)
  | (Except.ok allowed, calls) =>
    let rq := perform_quote inner ⟨q, allowed⟩
    let rs := spender_fetch inner
    let rw := swap_fetch inner
    let all_calls := calls ++ rq.2 ++ rs.2 ++ rw.2
    match rq.1, rs.1, rw.1 with
    | Except.ok quote, Except.ok spender, Except.ok swap =>
      (Except.ok ⟨quote.out_amount, quote.gas_estimate, some spender,
        ⟨swap.tx.to_addr, swap.tx.value, swap.tx.data⟩, inner.solver⟩, all_calls)
    | Except.error e, _, _ => (Except.error e, all_calls)
    | _, Except.error e, _ => (Except.error e, all_calls)
    | _, _, Except.error e => (Except.error e, all_calls)

/-- The outcome a coalesced caller observes. -/
abbrev SharingOutcome := Except TradeError Quote

/-- Modelled from the spec: the state of `RequestSharing` — the map from
in-flight coalescing key to the computation handle (a computation id and the
attached callers), the number of computations ever started (the next fresh
id), and the outcomes delivered to callers. -/
structure SharingState where
  inflight : InternalQuery → Option (Nat × List Nat)
  next_id : Nat
  delivered : List (Nat × Nat × SharingOutcome)

/-- The coalescer's observable events: a request arriving for a key, and an
in-flight computation completing with an outcome. -/
inductive SharingEvent where
  | arrive (k : InternalQuery) (caller : Nat)
  | complete (k : InternalQuery) (out : SharingOutcome)

/-- Modelled from the spec: one step of the coalescer.  An arriving request
attaches to a present entry, otherwise registers a fresh computation; a
completion delivers the same outcome to every attached caller and removes
the entry. -/
def sharing_step (s : SharingState) : SharingEvent → SharingState
  | SharingEvent.arrive k c =>
    match s.inflight k with
    | some (id, cs) =>
      { s with inflight := fun k2 => if k2 = k then some (id, c :: cs) else s.inflight k2 }
    | none =>
      { s with
        inflight := fun k2 => if k2 = k then some (s.next_id, [c]) else s.inflight k2,
        next_id := s.next_id + 1 }
  | SharingEvent.complete k out =>
    match s.inflight k with
    | some (id, cs) =>
      { s with
        inflight := fun k2 => if k2 = k then none else s.inflight k2,
        delivered := cs.map (fun c => (c, id, out)) ++ s.delivered }
    | none => s

/-- A run of the coalescer over a sequence of events. -/
def run_events (s : SharingState) (es : List SharingEvent) : SharingState :=
  es.foldl sharing_step s

/-- A configuration with one base token (3), native token 2, reference
amount 1: used to exercise the search on concrete snapshots. -/
def cfgEx : Config := ⟨[3], 2, 1, 5⟩

/-- Snapshot with a single direct 1↔2 pool; the 2-hop candidate through the
base token has no pools and is infeasible. -/
def poolsDirectOnly : Pools := [⟨1, 2, 1000, 1000, 7⟩]

/-- Sell query of 100 units of token 1 for token 2. -/
def qSell100 : Query := ⟨1, 2, 100, OrderKind.Sell⟩

/-- Snapshot where the direct path and the 2-hop path through the base token
yield exactly the same output (1 unit) for a 1-unit sell: an exact
comparison-key tie between two feasible candidates. -/
def poolsTie : Pools := [⟨1, 2, 1, 3, 7⟩, ⟨1, 3, 1, 3, 8⟩, ⟨2, 3, 3, 1, 9⟩]

/-- A concrete 1Inch adapter state whose every response succeeds and whose
caches are stale, so every capability would issue a network call. -/
def innerEx : OneInchInner :=
  ⟨⟨Except.ok ⟨808, 189386⟩, Except.ok 17, Except.ok ⟨⟨21, 0, [1, 2]⟩⟩,
    Except.ok ["UNISWAP_V2"]⟩, [], none, none, none, 3, 4⟩

/-- A concrete buy-kind query for the adapter. -/
def qBuyEx : Query := ⟨11, 12, 1000, OrderKind.Buy⟩

/-- The empty coalescer state. -/
def sharing0 : SharingState := ⟨fun _ => none, 0, []⟩

/-- A concrete coalescing key. -/
def keyEx : InternalQuery := ⟨⟨11, 12, 1000, OrderKind.Sell⟩, none⟩

/-- A concrete outcome for coalescing runs. -/
def outcomeEx : SharingOutcome := Except.ok ⟨808, 295777, 3⟩

theorem BigRat.blt_eq_true_iff (a b : BigRat) :
    BigRat.blt a b = true ↔ BigRat.ltProp a b := by
  simp [BigRat.blt, BigRat.ltProp]

theorem BigRat.blt_eq_false_iff (a b : BigRat) :
    BigRat.blt a b = false ↔ BigRat.leProp b a := by
  simp [BigRat.blt, BigRat.ltProp, BigRat.leProp, Int.not_lt]

theorem BigRat.leProp_refl (a : BigRat) : BigRat.leProp a a := le_refl _

theorem BigRat.le_of_lt (a b : BigRat) (h : BigRat.ltProp a b) : BigRat.leProp a b := by
  unfold BigRat.ltProp at h
  unfold BigRat.leProp
  exact Int.le_of_lt h

theorem BigRat.leProp_trans {a b c : BigRat} (ha : 0 < a.den) (hb : 0 < b.den)
    (hc : 0 < c.den) (h1 : BigRat.leProp a b) (h2 : BigRat.leProp b c) :
    BigRat.leProp a c := by
  unfold BigRat.leProp at h1 h2 ⊢
  have h3 : a.num * c.den * b.den ≤ c.num * a.den * b.den := by nlinarith
  exact le_of_mul_le_mul_right h3 hb

theorem BigRat.lt_of_lt_of_le {a b c : BigRat} (ha : 0 < a.den) (hb : 0 < b.den)
    (hc : 0 < c.den) (h1 : BigRat.ltProp a b) (h2 : BigRat.leProp b c) :
    BigRat.ltProp a c := by
  unfold BigRat.ltProp at h1 ⊢
  unfold BigRat.leProp at h2
  have h3 : a.num * c.den * b.den < c.num * a.den * b.den := by nlinarith
  exact lt_of_mul_lt_mul_right h3 hb.le

theorem max_fold_mem {α : Type} (key : α → BigRat) (l : List α) :
    ∀ best : α, max_fold key best l = best ∨ max_fold key best l ∈ l := by
  induction l with
  | nil => intro best; exact Or.inl rfl
  | cons x t ih =>
    intro best
    simp only [max_fold]
    by_cases hb : BigRat.blt (key x) (key best) = true
    · rw [if_pos hb]
      rcases ih best with h | h
      · exact Or.inl h
      · exact Or.inr (List.mem_cons_of_mem _ h)
    · rw [if_neg hb]
      rcases ih x with h | h
      · exact Or.inr (by rw [h]; exact List.mem_cons_self _ _)
      · exact Or.inr (List.mem_cons_of_mem _ h)

theorem max_fold_spec {α : Type} (key : α → BigRat) (hden : ∀ a : α, 0 < (key a).den)
    (l : List α) :
    ∀ best : α,
      (max_fold key best l = best ∧ ∀ a ∈ l, BigRat.ltProp (key a) (key best)) ∨
      (∃ l1 l2, l = l1 ++ max_fold key best l :: l2 ∧
        (∀ a ∈ l1, BigRat.leProp (key a) (key (max_fold key best l))) ∧
        (∀ a ∈ l2, BigRat.ltProp (key a) (key (max_fold key best l))) ∧
        BigRat.leProp (key best) (key (max_fold key best l))) := by
  induction l with
  | nil => intro best; exact Or.inl ⟨rfl, by simp⟩
  | cons x t ih =>
    intro best
    by_cases hb : BigRat.blt (key x) (key best) = true
    · have hxb : BigRat.ltProp (key x) (key best) := (BigRat.blt_eq_true_iff _ _).mp hb
      have hstep : max_fold key best (x :: t) = max_fold key best t := by
        show max_fold key (if BigRat.blt (key x) (key best) then best else x) t = _
        rw [if_pos hb]
      rw [hstep]
      rcases ih best with ⟨heq, hall⟩ | ⟨l1, l2, heq, h1, h2, hbm⟩
      · left
        refine ⟨heq, ?_⟩
        intro a ha
        rcases List.mem_cons.mp ha with rfl | h
        · exact hxb
        · exact hall a h
      · right
        refine ⟨x :: l1, l2, by rw [List.cons_append, ← heq], ?_, h2, hbm⟩
        intro a ha
        rcases List.mem_cons.mp ha with rfl | h
        · exact BigRat.le_of_lt _ _
            (BigRat.lt_of_lt_of_le (hden _) (hden _) (hden _) hxb hbm)
        · exact h1 a h
    · have hb' : BigRat.blt (key x) (key best) = false := by
        revert hb; cases BigRat.blt (key x) (key best) <;> simp
      have hbx : BigRat.leProp (key best) (key x) := (BigRat.blt_eq_false_iff _ _).mp hb'
      have hstep : max_fold key best (x :: t) = max_fold key x t := by
        show max_fold key (if BigRat.blt (key x) (key best) then best else x) t = _
        rw [if_neg hb]
      rw [hstep]
      rcases ih x with ⟨heq, hall⟩ | ⟨l1, l2, heq, h1, h2, hxm⟩
      · right
        refine ⟨[], t, by simp [heq], by simp, ?_, ?_⟩
        · rw [heq]; exact hall
        · rw [heq]; exact hbx
      · right
        refine ⟨x :: l1, l2, by rw [List.cons_append, ← heq], ?_, h2, ?_⟩
        · intro a ha
          rcases List.mem_cons.mp ha with rfl | h
          · exact hxm
          · exact h1 a h
        · exact BigRat.leProp_trans (hden _) (hden _) (hden _) hbx hxm

theorem max_by_key_last_mem {α : Type} (key : α → BigRat) (l : List α) (m : α)
    (h : max_by_key_last key l = some m) : m ∈ l := by
  cases l with
  | nil => simp [max_by_key_last] at h
  | cons a t =>
    have hm : max_fold key a t = m := by simpa [max_by_key_last] using h
    rcases max_fold_mem key t a with h2 | h2
    · rw [hm] at h2; exact h2 ▸ List.mem_cons_self _ _
    · exact List.mem_cons_of_mem _ (hm ▸ h2)

theorem max_by_key_last_spec {α : Type} (key : α → BigRat)
    (hden : ∀ a : α, 0 < (key a).den) (l : List α) (m : α)
    (h : max_by_key_last key l = some m) :
    ∃ l1 l2, l = l1 ++ m :: l2 ∧
      (∀ a ∈ l1, BigRat.leProp (key a) (key m)) ∧
      (∀ a ∈ l2, BigRat.ltProp (key a) (key m)) := by
  cases l with
  | nil => simp [max_by_key_last] at h
  | cons a t =>
    have hm : max_fold key a t = m := by simpa [max_by_key_last] using h
    rcases max_fold_spec key hden t a with ⟨heq, hall⟩ | ⟨l1, l2, heq, h1, h2, hbm⟩
    · refine ⟨[], t, ?_, by simp, ?_⟩
      · rw [List.nil_append, ← hm, heq]
      · intro x hx
        rw [← hm, heq]
        exact hall x hx
    · rw [hm] at heq h1 h2 hbm
      refine ⟨a :: l1, l2, by simp [heq], ?_, h2⟩
      intro x hx
      rcases List.mem_cons.mp hx with rfl | hx2
      · exact hbm
      · exact h1 x hx2

theorem max_by_key_last_le {α : Type} (key : α → BigRat)
    (hden : ∀ a : α, 0 < (key a).den) (l : List α) (m : α)
    (h : max_by_key_last key l = some m) :
    ∀ a ∈ l, BigRat.leProp (key a) (key m) := by
  obtain ⟨l1, l2, heq, h1, h2⟩ := max_by_key_last_spec key hden l m h
  intro a ha
  rw [heq] at ha
  rcases List.mem_append.mp ha with hx | hx
  · exact h1 a hx
  · rcases List.mem_cons.mp hx with rfl | hx2
    · exact BigRat.leProp_refl _
    · exact BigRat.le_of_lt _ _ (h2 a hx2)

theorem best_execution_eq_ok {cfg : Config} {s b : Token} {amt : Nat}
    {cmp : Nat → List Token → Pools → BigRat}
    {res : Nat → List Token → Pools → Option Nat} {pools : Pools}
    {path : List Token} {out : Nat}
    (h : best_execution cfg s b amt cmp res pools = Except.ok (path, out)) :
    max_by_key_last (fun p => cmp amt p pools) (path_candidates cfg s b) = some path ∧
      res amt path pools = some out := by
  unfold best_execution at h
  split at h
  next hm => exact absurd h (by simp)
  next p0 hm =>
    split at h
    next hr => exact absurd h (by simp)
    next r0 hr =>
      simp only [Except.ok.injEq, Prod.mk.injEq] at h
      obtain ⟨h1, h2⟩ := h
      subst h1
      subst h2
      exact ⟨hm, hr⟩

theorem sell_comparison_key_den_pos (g : Nat) (price : Option BigRat)
    (hp : ∀ p, price = some p → 0 < p.den) (amt : Nat) (path : List Token)
    (pools : Pools) : 0 < (sell_comparison_key g price amt path pools).den := by
  unfold sell_comparison_key
  cases estimate_buy_amount amt path pools with
  | none => simp [WORST_COMPARISON]
  | some e =>
    unfold sell_path_comparison
    cases hv : price with
    | none => simp [BigRat.ofNat]
    | some p =>
      simp only [BigRat.mul, BigRat.sub, BigRat.ofNat]
      have := hp p hv
      simpa using this

theorem buy_comparison_key_den_pos (g : Nat) (price : Option BigRat)
    (hp : ∀ p, price = some p → 0 < p.den) (amt : Nat) (path : List Token)
    (pools : Pools) : 0 < (buy_comparison_key g price amt path pools).den := by
  unfold buy_comparison_key
  cases estimate_sell_amount amt path pools with
  | none => simp [WORST_COMPARISON]
  | some e =>
    unfold buy_path_comparison
    cases hv : price with
    | none => simp [BigRat.ofNat, BigRat.neg]
    | some p =>
      simp only [BigRat.mul, BigRat.sub, BigRat.neg, BigRat.ofNat]
      have := hp p hv
      simpa using this

theorem best_execution_eq_error {cfg : Config} {s b : Token} {amt : Nat}
    {cmp : Nat → List Token → Pools → BigRat}
    {res : Nat → List Token → Pools → Option Nat} {pools : Pools}
    {err : PriceEstimationError}
    (h : best_execution cfg s b amt cmp res pools = Except.error err) :
    err = PriceEstimationError.NoLiquidity ∧
      (max_by_key_last (fun p => cmp amt p pools) (path_candidates cfg s b) = none ∨
        ∃ m, max_by_key_last (fun p => cmp amt p pools) (path_candidates cfg s b) =
            some m ∧ res amt m pools = none) := by
  unfold best_execution at h
  split at h
  next hm =>
    simp only [Except.error.injEq] at h
    exact ⟨h.symm, Or.inl hm⟩
  next m hm =>
    split at h
    next hr =>
      simp only [Except.error.injEq] at h
      exact ⟨h.symm, Or.inr ⟨m, hm, hr⟩⟩
    next r hr => simp at h

/-- C1, counterexample: with buy token = native token (price 1) and the
`f64`-representable gas price `2 ^ 250`, the feasible direct path's
gas-adjusted key falls below `WORST_COMPARISON`, so the infeasible 2-hop
candidate is selected and the search fails with `NoLiquidity` although a
feasible candidate exists — refuting both the claimed iff and the claim
that an infeasible candidate is never the selected path. -/
theorem claim1_counterexample :
    qSell100.sell_token ≠ qSell100.buy_token ∧
      estimate_price_helper cfgEx qSell100 true poolsDirectOnly (2 ^ 250) =
        Except.error PriceEstimationError.NoLiquidity ∧
      estimate_buy_amount 100 [1, 2] poolsDirectOnly = some ⟨90, 1⟩ ∧
      [1, 2] ∈ path_candidates cfgEx 1 2 := by decide

/-- C1 (amended): without gas-awareness (no native price attached), the
sell-order best-execution search fails with `NoLiquidity` exactly when every
candidate path is infeasible; with gas-awareness the equivalence can break
because a feasible path's gas-adjusted key may fall below the infeasible
marker `WORST_COMPARISON`. -/
theorem claim1_amended (cfg : Config) (s b : Token) (amt g : Nat) (pools : Pools)
    (hne : s ≠ b) :
    best_execution_sell_order cfg s b amt g none pools =
        Except.error PriceEstimationError.NoLiquidity ↔
      ∀ p ∈ path_candidates cfg s b, estimate_buy_amount amt p pools = none := by
  have hden : ∀ p : List Token, 0 < (sell_comparison_key g none amt p pools).den :=
    fun p => sell_comparison_key_den_pos g none (fun _ hp => nomatch hp) amt p pools
  constructor
  · intro h p hp
    unfold best_execution_sell_order at h
    obtain ⟨-, hcase⟩ := best_execution_eq_error h
    rcases hcase with hm | ⟨m, hm, hres⟩
    · exact absurd hm (by simp [path_candidates, max_by_key_last])
    · by_contra hfeas
      obtain ⟨e, he⟩ := Option.ne_none_iff_exists'.mp hfeas
      have hle : BigRat.leProp (sell_comparison_key g none amt p pools)
          (sell_comparison_key g none amt m pools) :=
        max_by_key_last_le _ hden _ _ hm p hp
      have hkeyp : sell_comparison_key g none amt p pools = BigRat.ofNat e.value := by
        unfold sell_comparison_key
        rw [he]
        rfl
      have hinf : estimate_buy_amount amt m pools = none := by
        simpa using hres
      have hkeym : sell_comparison_key g none amt m pools = WORST_COMPARISON := by
        unfold sell_comparison_key
        rw [hinf]
      rw [hkeyp, hkeym] at hle
      unfold BigRat.leProp BigRat.ofNat WORST_COMPARISON at hle
      simp at hle
      have h0 : (0 : Int) ≤ (e.value : Int) := Int.natCast_nonneg _
      have hneg : (-(2 ^ 256 - 1 : Int)) < 0 := by norm_num
      linarith
  · intro hall
    cases hm : max_by_key_last (fun p2 => sell_comparison_key g none amt p2 pools)
        (path_candidates cfg s b) with
    | none => exact absurd hm (by simp [path_candidates, max_by_key_last])
    | some m =>
      have hmem := max_by_key_last_mem _ _ _ hm
      have hinf := hall m hmem
      unfold best_execution_sell_order best_execution
      simp [hm, hinf]

/-- C1, witness: on an empty snapshot every candidate is infeasible and the
search indeed returns `NoLiquidity`. -/
theorem claim1_witness :
    best_execution_sell_order cfgEx 1 2 10 0 none [] =
      Except.error PriceEstimationError.NoLiquidity :=
  (claim1_amended cfgEx 1 2 10 0 [] (by decide)).mpr (by decide)

/-- C2, counterexample: the direct path `[1, 2]` and the 2-hop path
`[1, 3, 2]` are both feasible with identical comparison keys, the direct
path is enumerated first, yet the search selects the 2-hop path — refuting
the claim that the first-enumerated of equally ranked candidates wins. -/
theorem claim2_counterexample :
    best_execution_sell_order cfgEx 1 2 1 0 none poolsTie = Except.ok ([1, 3, 2], 1) ∧
      path_candidates cfgEx 1 2 = [[1, 2], [1, 3, 2]] ∧
      sell_comparison_key 0 none 1 [1, 2] poolsTie =
        sell_comparison_key 0 none 1 [1, 3, 2] poolsTie ∧
      estimate_buy_amount 1 [1, 2] poolsTie = some ⟨1, 1⟩ := by decide

/-- C2 (amended): `Iterator::max_by_key` keeps the last of equally maximal
elements, so the best-execution search selects the last-enumerated of the
equally ranked maximal candidate paths: the winner splits the candidate
list so that every earlier candidate has a key at most the winner's and
every later candidate has a strictly smaller key. -/
theorem claim2_amended (cfg : Config) (s b : Token) (amt : Nat)
    (cmp : Nat → List Token → Pools → BigRat)
    (res : Nat → List Token → Pools → Option Nat) (pools : Pools)
    (path : List Token) (out : Nat)
    (hden : ∀ p : List Token, 0 < (cmp amt p pools).den)
    (h : best_execution cfg s b amt cmp res pools = Except.ok (path, out)) :
    ∃ l1 l2, path_candidates cfg s b = l1 ++ path :: l2 ∧
      (∀ p2 ∈ l1, BigRat.leProp (cmp amt p2 pools) (cmp amt path pools)) ∧
      (∀ p2 ∈ l2, BigRat.ltProp (cmp amt p2 pools) (cmp amt path pools)) := by
  obtain ⟨hm, -⟩ := best_execution_eq_ok h
  obtain ⟨l1, l2, heq, h1, h2⟩ := max_by_key_last_spec _ hden _ _ hm
  exact ⟨l1, l2, heq, h1, h2⟩

/-- C2, witness: in the tie scenario the returned winner `[1, 3, 2]` is the
last candidate, with the equally ranked direct path before it. -/
theorem claim2_amended_witness :
    ∃ l1 l2, path_candidates cfgEx 1 2 = l1 ++ [1, 3, 2] :: l2 ∧
      (∀ p2 ∈ l1, BigRat.leProp (sell_comparison_key 0 none 1 p2 poolsTie)
        (sell_comparison_key 0 none 1 [1, 3, 2] poolsTie)) ∧
      (∀ p2 ∈ l2, BigRat.ltProp (sell_comparison_key 0 none 1 p2 poolsTie)
        (sell_comparison_key 0 none 1 [1, 3, 2] poolsTie)) :=
  claim2_amended cfgEx 1 2 1 (sell_comparison_key 0 none)
    (fun amount path pools => (estimate_buy_amount amount path pools).map
      (fun e => e.value))
    poolsTie [1, 3, 2] 1
    (fun p => sell_comparison_key_den_pos 0 none (fun _ hp => nomatch hp) 1 p poolsTie)
    (by decide)

/-- C6: a successful best-execution search (sell or buy order, any native
price, any gas price) reports exactly the gas-free amount estimator value
recomputed on the winning path — gas costs enter only the comparison, never
the reported amount. -/
theorem claim6 (cfg : Config) (s b : Token) (amt g : Nat) (price : Option BigRat)
    (pools : Pools) (path : List Token) (out : Nat) :
    (best_execution_sell_order cfg s b amt g price pools = Except.ok (path, out) →
      ∃ e, estimate_buy_amount amt path pools = some e ∧ e.value = out) ∧
    (best_execution_buy_order cfg s b amt g price pools = Except.ok (path, out) →
      ∃ e, estimate_sell_amount amt path pools = some e ∧ e.value = out) := by
  constructor
  · intro h
    unfold best_execution_sell_order at h
    obtain ⟨-, hres⟩ := best_execution_eq_ok h
    exact Option.map_eq_some'.mp hres
  · intro h
    unfold best_execution_buy_order at h
    obtain ⟨-, hres⟩ := best_execution_eq_ok h
    exact Option.map_eq_some'.mp hres

/-- C6, witness: the winning 2-hop path of the tie scenario reports the
recomputed estimator value 1. -/
theorem claim6_witness :
    ∃ e, estimate_buy_amount 1 [1, 3, 2] poolsTie = some e ∧ e.value = 1 :=
  (claim6 cfgEx 1 2 1 0 none poolsTie [1, 3, 2] 1).1 (by decide)

/-- C3: a query with equal sell and buy token short-circuits (for either
gas-awareness flag) to the empty path with the input amount unchanged, and
the full estimate reports that amount with gas 0, independent of the
snapshot and the gas price. -/
theorem claim3 (cfg : Config) (q : Query) (cg : Bool) (pools : Pools) (g : Nat)
    (h : q.sell_token = q.buy_token) (hpos : 0 < q.in_amount) :
    estimate_price_helper cfg q cg pools g = Except.ok ([], q.in_amount) ∧
      estimate cfg q pools g = Except.ok ⟨q.in_amount, 0, cfg.solver⟩ := by
  constructor
  · unfold estimate_price_helper
    rw [if_pos h]
  · unfold estimate estimate_price_helper
    rw [if_pos h]
    rfl

/-- C3, witness: a concrete identity query (kind Buy, amount 42) on a
nonempty snapshot. -/
theorem claim3_witness :
    estimate_price_helper cfgEx ⟨9, 9, 42, OrderKind.Buy⟩ true poolsTie 7 =
        Except.ok ([], 42) ∧
      estimate cfgEx ⟨9, 9, 42, OrderKind.Buy⟩ poolsTie 7 = Except.ok ⟨42, 0, 5⟩ :=
  claim3 cfgEx ⟨9, 9, 42, OrderKind.Buy⟩ true poolsTie 7 (by decide) (by decide)

/-- C4: whenever the gas-aware helper succeeds with a (nonempty) winning
path, the estimate reports gas `SETTLEMENT_SINGLE_TRADE + per_hop × (hops −
1)` where `per_hop = ERC20_TRANSFER * 2 + 40000` is a fixed constant and
`hops` is the number of tokens visited on the path (truncated subtraction
realises `max(hops − 1, 0)`). -/
theorem claim4 (cfg : Config) (q : Query) (pools : Pools) (g : Nat)
    (path : List Token) (out : Nat)
    (h : estimate_price_helper cfg q true pools g = Except.ok (path, out))
    (hlen : 1 ≤ path.length) :
    estimate cfg q pools g = Except.ok
      ⟨out, GAS_SETTLEMENT_SINGLE_TRADE +
        (GAS_ERC20_TRANSFER * 2 + 40000) * (path.length - 1), cfg.solver⟩ := by
  unfold estimate
  rw [h]
  cases path with
  | nil => simp at hlen
  | cons a t => rfl

/-- C4, witness: the concrete 2-hop winner `[1, 3, 2]` (3 tokens visited)
reports base plus twice the per-hop cost. -/
theorem claim4_witness :
    estimate cfgEx ⟨1, 2, 1, OrderKind.Sell⟩ poolsTie 0 =
      Except.ok ⟨1, GAS_SETTLEMENT_SINGLE_TRADE +
        (GAS_ERC20_TRANSFER * 2 + 40000) * 2, 5⟩ :=
  claim4 cfgEx ⟨1, 2, 1, OrderKind.Sell⟩ poolsTie 0 [1, 3, 2] 1 (by decide) (by decide)

/-- C10: when the non-amount-fixed side is the native token itself (the buy
token of a Sell order, the sell token of a Buy order), the gas-aware helper
equals the main search invoked directly with native price exactly 1 — no
sub-search is performed and no native/native pool is ever consulted, for
every snapshot. -/
theorem claim10 (cfg : Config) (q : Query) (pools : Pools) (g : Nat) :
    (q.kind = OrderKind.Sell → q.sell_token ≠ q.buy_token →
      q.buy_token = cfg.native_token →
      estimate_price_helper cfg q true pools g =
        best_execution_sell_order cfg q.sell_token q.buy_token q.in_amount g
          (some (BigRat.ofNat 1)) pools) ∧
    (q.kind = OrderKind.Buy → q.sell_token ≠ q.buy_token →
      q.sell_token = cfg.native_token →
      estimate_price_helper cfg q true pools g =
        best_execution_buy_order cfg q.sell_token q.buy_token q.in_amount g
          (some (BigRat.ofNat 1)) pools) := by
  constructor
  · intro hk hne hnat
    unfold estimate_price_helper
    rw [if_neg hne, hk]
    unfold native_price_for
    rw [if_pos hnat]
    rfl
  · intro hk hne hnat
    unfold estimate_price_helper
    rw [if_neg hne, hk]
    unfold native_price_for
    rw [if_pos hnat]
    rfl

/-- C10, witness: concrete Sell query whose buy token is the native token.  -/
theorem claim10_witness :
    estimate_price_helper cfgEx ⟨1, 2, 1, OrderKind.Sell⟩ true poolsTie 0 =
      best_execution_sell_order cfgEx 1 2 1 0 (some (BigRat.ofNat 1)) poolsTie :=
  (claim10 cfgEx ⟨1, 2, 1, OrderKind.Sell⟩ poolsTie 0).1 rfl (by decide) rfl

theorem helper_rec_no_gas (cfg : Config) (q : Query) (pools : Pools) (g fuel : Nat) :
    estimate_price_helper_rec cfg (fuel + 1) q false pools g =
      some (estimate_price_helper cfg q false pools g) := by
  unfold estimate_price_helper_rec estimate_price_helper
  by_cases h : q.sell_token = q.buy_token
  · simp [h]
  · simp only [if_neg h]
    cases q.kind <;> simp

theorem helper_rec_depth (cfg : Config) (q : Query) (cg : Bool) (pools : Pools)
    (g fuel : Nat) :
    estimate_price_helper_rec cfg (fuel + 2) q cg pools g =
      some (estimate_price_helper cfg q cg pools g) := by
  show estimate_price_helper_rec cfg (fuel + 1 + 1) q cg pools g = _
  unfold estimate_price_helper_rec estimate_price_helper
  by_cases h : q.sell_token = q.buy_token
  · simp [h]
  · simp only [if_neg h]
    cases q.kind with
    | Buy =>
      cases cg
      · simp
      · by_cases hn : q.sell_token = cfg.native_token
        · simp [hn, native_price_for]
        · rw [helper_rec_no_gas cfg
            ⟨cfg.native_token, q.sell_token, cfg.native_token_price_estimation_amount,
              OrderKind.Sell⟩ pools g fuel]
          have hq2 : estimate_price_helper cfg
              ⟨cfg.native_token, q.sell_token, cfg.native_token_price_estimation_amount,
                OrderKind.Sell⟩ false pools g =
              best_execution_sell_order cfg cfg.native_token q.sell_token
                cfg.native_token_price_estimation_amount g none pools := by
            unfold estimate_price_helper
            have hne2 : cfg.native_token ≠ q.sell_token := fun hh => hn hh.symm
            simp [hne2]
          rw [hq2]
          unfold native_price_for
          simp only [if_neg hn]
          cases best_execution_sell_order cfg cfg.native_token q.sell_token
              cfg.native_token_price_estimation_amount g none pools with
          | error e => simp
          | ok val =>
            obtain ⟨p2, amt2⟩ := val
            cases hA : amounts_to_price cfg.native_token_price_estimation_amount amt2 with
            | none => simp [hA]
            | some pr => simp [hA]
    | Sell =>
      cases cg
      · simp
      · by_cases hn : q.buy_token = cfg.native_token
        · simp [hn, native_price_for]
        · rw [helper_rec_no_gas cfg
            ⟨cfg.native_token, q.buy_token, cfg.native_token_price_estimation_amount,
              OrderKind.Sell⟩ pools g fuel]
          have hq2 : estimate_price_helper cfg
              ⟨cfg.native_token, q.buy_token, cfg.native_token_price_estimation_amount,
                OrderKind.Sell⟩ false pools g =
              best_execution_sell_order cfg cfg.native_token q.buy_token
                cfg.native_token_price_estimation_amount g none pools := by
            unfold estimate_price_helper
            have hne2 : cfg.native_token ≠ q.buy_token := fun hh => hn hh.symm
            simp [hne2]
          rw [hq2]
          unfold native_price_for
          simp only [if_neg hn]
          cases best_execution_sell_order cfg cfg.native_token q.buy_token
              cfg.native_token_price_estimation_amount g none pools with
          | error e => simp
          | ok val =>
            obtain ⟨p2, amt2⟩ := val
            cases hA : amounts_to_price cfg.native_token_price_estimation_amount amt2 with
            | none => simp [hA]
            | some pr => simp [hA]

/-- C5: the helper implements the spec's recursive reading with recursion
depth at most one — fuel 2 always reproduces it exactly (the single
native-price sub-search runs with gas-awareness disabled), and with
gas-awareness disabled fuel 1 already suffices (no sub-search at all), so
the computation terminates for every query. -/
theorem claim5 (cfg : Config) (q : Query) (cg : Bool) (pools : Pools) (g fuel : Nat) :
    (2 ≤ fuel →
      estimate_price_helper_rec cfg fuel q cg pools g =
        some (estimate_price_helper cfg q cg pools g)) ∧
    (1 ≤ fuel →
      estimate_price_helper_rec cfg fuel q false pools g =
        some (estimate_price_helper cfg q false pools g)) := by
  constructor
  · intro h
    obtain ⟨f, rfl⟩ : ∃ f, fuel = f + 2 := ⟨fuel - 2, by omega⟩
    exact helper_rec_depth cfg q cg pools g f
  · intro h
    obtain ⟨f, rfl⟩ : ∃ f, fuel = f + 1 := ⟨fuel - 1, by omega⟩
    exact helper_rec_no_gas cfg q pools g f

/-- C5, witness: fuel 2 reproduces the gas-aware helper on a concrete
query. -/
theorem claim5_witness :
    estimate_price_helper_rec cfgEx 2 qSell100 true poolsDirectOnly 7 =
      some (estimate_price_helper cfgEx qSell100 true poolsDirectOnly 7) :=
  (claim5 cfgEx qSell100 true poolsDirectOnly 7 2).1 (by decide)

/-- C7: a Buy-kind query is rejected by both the quote and the trade
capability with `UnsupportedOrderType` and an empty list of issued API
calls — the rejection happens before any network call, for every adapter
state. -/
theorem claim7 (inner : OneInchInner) (q : Query) (h : q.kind = OrderKind.Buy) :
    oneinch_quote inner q =
        (Except.error (TradeError.UnsupportedOrderType "buy order"), []) ∧
      oneinch_swap inner q =
        (Except.error (TradeError.UnsupportedOrderType "buy order"), []) := by
  constructor
  · unfold oneinch_quote verify_query_and_get_protocols
    rw [if_pos h]
  · unfold oneinch_swap verify_query_and_get_protocols
    rw [if_pos h]

/-- C7, witness: a concrete Buy query against an adapter whose caches are
stale and whose every response would succeed. -/
theorem claim7_witness :
    oneinch_quote innerEx qBuyEx =
        (Except.error (TradeError.UnsupportedOrderType "buy order"), []) ∧
      oneinch_swap innerEx qBuyEx =
        (Except.error (TradeError.UnsupportedOrderType "buy order"), []) :=
  claim7 innerEx qBuyEx (by decide)

/-- C8: the error conversion maps an HTTP 429 API response to `RateLimited`
(this case wins on overlap), any remaining insufficient-liquidity signal to
`NoLiquidity`, and every other failure to `Other` carrying the original
error value, so its message is preserved. -/
theorem claim8 (e : OneInchError) :
    (∀ desc, e = OneInchError.Api 429 desc →
      trade_error_from_oneinch e = TradeError.RateLimited) ∧
    ((∀ desc, e ≠ OneInchError.Api 429 desc) →
      e.is_insuffucient_liquidity = true →
      trade_error_from_oneinch e = TradeError.NoLiquidity) ∧
    ((∀ desc, e ≠ OneInchError.Api 429 desc) →
      e.is_insuffucient_liquidity = false →
      trade_error_from_oneinch e = TradeError.Other e) := by
  cases e with
  | Api code desc =>
    refine ⟨?_, ?_, ?_⟩
    · intro d hd
      injection hd with h1 h2
      subst h1
      subst h2
      simp [trade_error_from_oneinch]
    · intro hne hliq
      have hcode : code ≠ 429 := fun hc => hne desc (by rw [hc])
      simp [trade_error_from_oneinch, hcode, hliq]
    · intro hne hliq
      have hcode : code ≠ 429 := fun hc => hne desc (by rw [hc])
      simp [trade_error_from_oneinch, hcode, hliq]
  | Other msg =>
    refine ⟨?_, ?_, ?_⟩
    · intro d hd
      exact absurd hd (by simp)
    · intro hne hliq
      simp [OneInchError.is_insuffucient_liquidity] at hliq
    · intro hne hliq
      simp [trade_error_from_oneinch, OneInchError.is_insuffucient_liquidity]

/-- C8, witness: the three mapping cases at concrete errors; the first also
shows 429 winning over a simultaneous insufficient-liquidity description. -/
theorem claim8_witness :
    trade_error_from_oneinch (OneInchError.Api 429 "insufficient liquidity") =
        TradeError.RateLimited ∧
      trade_error_from_oneinch (OneInchError.Api 500 "insufficient liquidity") =
        TradeError.NoLiquidity ∧
      trade_error_from_oneinch (OneInchError.Other "malformed JSON") =
        TradeError.Other (OneInchError.Other "malformed JSON") :=
  ⟨(claim8 (OneInchError.Api 429 "insufficient liquidity")).1 "insufficient liquidity" rfl,
   (claim8 (OneInchError.Api 500 "insufficient liquidity")).2.1
     (fun d hd => by injection hd with h1 h2; exact absurd h1 (by decide)) rfl,
   (claim8 (OneInchError.Other "malformed JSON")).2.2
     (fun d hd => by exact absurd hd (by simp)) rfl⟩

theorem run_events_cons (s : SharingState) (e : SharingEvent) (es : List SharingEvent) :
    run_events s (e :: es) = run_events (sharing_step s e) es := rfl

theorem run_events_append (s : SharingState) (l1 l2 : List SharingEvent) :
    run_events s (l1 ++ l2) = run_events (run_events s l1) l2 :=
  List.foldl_append sharing_step s l1 l2

theorem sharing_step_arrive_none {s : SharingState} {k : InternalQuery} (c : Nat)
    (h : s.inflight k = none) :
    sharing_step s (SharingEvent.arrive k c) =
      { s with
        inflight := fun k2 => if k2 = k then some (s.next_id, [c]) else s.inflight k2,
        next_id := s.next_id + 1 } := by
  simp only [sharing_step]
  rw [h]

theorem sharing_step_arrive_some {s : SharingState} {k : InternalQuery} {id : Nat}
    {cs : List Nat} (c : Nat) (h : s.inflight k = some (id, cs)) :
    sharing_step s (SharingEvent.arrive k c) =
      { s with
        inflight := fun k2 => if k2 = k then some (id, c :: cs) else s.inflight k2 } := by
  simp only [sharing_step]
  rw [h]

theorem sharing_step_complete_some {s : SharingState} {k : InternalQuery} {id : Nat}
    {cs : List Nat} (v : SharingOutcome) (h : s.inflight k = some (id, cs)) :
    sharing_step s (SharingEvent.complete k v) =
      { s with
        inflight := fun k2 => if k2 = k then none else s.inflight k2,
        delivered := cs.map (fun c => (c, id, v)) ++ s.delivered } := by
  simp only [sharing_step]
  rw [h]

theorem run_arrivals (k : InternalQuery) (cs : List Nat) :
    ∀ (s : SharingState) (id : Nat) (l0 : List Nat), s.inflight k = some (id, l0) →
      (run_events s (cs.map (SharingEvent.arrive k))).inflight k =
          some (id, cs.reverse ++ l0) ∧
        (run_events s (cs.map (SharingEvent.arrive k))).next_id = s.next_id ∧
        (run_events s (cs.map (SharingEvent.arrive k))).delivered = s.delivered := by
  induction cs with
  | nil => intro s id l0 h; exact ⟨by simpa using h, rfl, rfl⟩
  | cons c cs ih =>
    intro s id l0 h
    rw [List.map_cons, run_events_cons, sharing_step_arrive_some c h]
    have h2 : ({ s with
        inflight := fun k2 => if k2 = k then some (id, c :: l0) else s.inflight k2 } :
        SharingState).inflight k = some (id, c :: l0) := by simp
    obtain ⟨ha, hb, hc⟩ := ih _ id (c :: l0) h2
    refine ⟨?_, hb, hc⟩
    rw [ha]
    simp

/-- C9: from a state with no in-flight computation for key `k`, any N ≥ 2
requests arriving for `k` start exactly one underlying computation; its
completion delivers the identical outcome to every one of the N callers,
attached to that single computation; the entry is then removed, and one more
identical request afterwards starts a fresh computation. -/
theorem claim9 (s : SharingState) (k : InternalQuery) (cs : List Nat)
    (v : SharingOutcome) (c2 : Nat)
    (h0 : s.inflight k = none) (hN : 2 ≤ cs.length) :
    (run_events s (cs.map (SharingEvent.arrive k) ++
        [SharingEvent.complete k v])).next_id = s.next_id + 1 ∧
      (∀ c ∈ cs, (c, s.next_id, v) ∈
        (run_events s (cs.map (SharingEvent.arrive k) ++
          [SharingEvent.complete k v])).delivered) ∧
      (run_events s (cs.map (SharingEvent.arrive k) ++
        [SharingEvent.complete k v])).inflight k = none ∧
      (sharing_step (run_events s (cs.map (SharingEvent.arrive k) ++
        [SharingEvent.complete k v])) (SharingEvent.arrive k c2)).next_id =
        (run_events s (cs.map (SharingEvent.arrive k) ++
          [SharingEvent.complete k v])).next_id + 1 := by
  cases cs with
  | nil => simp at hN
  | cons c1 rest =>
    have e1 : run_events s ((c1 :: rest).map (SharingEvent.arrive k) ++
        [SharingEvent.complete k v]) =
        sharing_step (run_events (sharing_step s (SharingEvent.arrive k c1))
          (rest.map (SharingEvent.arrive k))) (SharingEvent.complete k v) := by
      rw [List.map_cons, List.cons_append, run_events_cons, run_events_append]
      rfl
    have hstep1 := sharing_step_arrive_none c1 h0
    obtain ⟨ha, hb, hc⟩ := run_arrivals k rest
      (sharing_step s (SharingEvent.arrive k c1)) s.next_id [c1]
      (by rw [hstep1]; simp)
    have e2 := sharing_step_complete_some v ha
    rw [e1, e2]
    refine ⟨?_, ?_, by simp, ?_⟩
    · show (run_events (sharing_step s (SharingEvent.arrive k c1))
        (rest.map (SharingEvent.arrive k))).next_id = s.next_id + 1
      rw [hb, hstep1]
    · intro c hcmem
      have hmem2 : c ∈ rest.reverse ++ [c1] := by
        rcases List.mem_cons.mp hcmem with rfl | hr
        · exact List.mem_append.mpr (Or.inr (List.mem_singleton.mpr rfl))
        · exact List.mem_append.mpr (Or.inl (List.mem_reverse.mpr hr))
      show (c, s.next_id, v) ∈
        (rest.reverse ++ [c1]).map (fun c => (c, s.next_id, v)) ++
          (run_events (sharing_step s (SharingEvent.arrive k c1))
            (rest.map (SharingEvent.arrive k))).delivered
      exact List.mem_append.mpr (Or.inl (List.mem_map.mpr ⟨c, hmem2, rfl⟩))
    · have hnone : ({ run_events (sharing_step s (SharingEvent.arrive k c1))
          (rest.map (SharingEvent.arrive k)) with
          inflight := fun k2 => if k2 = k then none else
            (run_events (sharing_step s (SharingEvent.arrive k c1))
              (rest.map (SharingEvent.arrive k))).inflight k2,
          delivered := (rest.reverse ++ [c1]).map (fun c => (c, s.next_id, v)) ++
            (run_events (sharing_step s (SharingEvent.arrive k c1))
              (rest.map (SharingEvent.arrive k))).delivered } :
          SharingState).inflight k = none := by simp
      rw [sharing_step_arrive_none c2 hnone]

/-- C9, witness: two callers coalesce on one computation (id 0), both
receive the same outcome, the entry is gone afterwards, and a third caller
then starts computation 1. -/
theorem claim9_witness :
    (run_events sharing0 ([1, 2].map (SharingEvent.arrive keyEx) ++
        [SharingEvent.complete keyEx outcomeEx])).next_id = 1 ∧
      ((1 : Nat), (0 : Nat), outcomeEx) ∈
        (run_events sharing0 ([1, 2].map (SharingEvent.arrive keyEx) ++
          [SharingEvent.complete keyEx outcomeEx])).delivered ∧
      (run_events sharing0 ([1, 2].map (SharingEvent.arrive keyEx) ++
        [SharingEvent.complete keyEx outcomeEx])).inflight keyEx = none ∧
      (sharing_step (run_events sharing0 ([1, 2].map (SharingEvent.arrive keyEx) ++
        [SharingEvent.complete keyEx outcomeEx])) (SharingEvent.arrive keyEx 7)).next_id =
        (run_events sharing0 ([1, 2].map (SharingEvent.arrive keyEx) ++
          [SharingEvent.complete keyEx outcomeEx])).next_id + 1 :=
  have h := claim9 sharing0 keyEx [1, 2] outcomeEx 7 rfl (by decide)
  ⟨h.1, h.2.1 1 (by decide), h.2.2.1, h.2.2.2⟩
